import Mathlib

set_option linter.unusedVariables false
set_option maxRecDepth 4000

namespace RalphDeployment

/-!
# Verification of `src/ralph/dhcp/deployment.py`

Shallow embedding of the transition actions for deployment (choice/default
helpers and the cleaning/assignment steps) together with theorems checking
the natural-language specification against them.

Conventions of the embedding:
* Django model instances become Lean structures; a related manager
  (`instance.ethernet`, `ethernet.ipaddress`) becomes a list field.
* A Python `set(...)` becomes `List.toFinset`; `set.intersection(*sets)`
  becomes a left fold of `∩` over the per-object sets (it raises `TypeError`
  on an empty argument list, modelled as `Option.none` in callers).
* A raised Python exception becomes a `PyError` value returned through
  `Except` / an `Option PyError` component.
* External collaborators (the DNSaaS client, the hostname allocator of a
  network environment) are parameters of the embedded functions.
-/

/-- Errors the embedded Python code can raise. -/
inductive PyError where
  /-- `TypeError`: e.g. calling a function with the wrong number of
  positional arguments, or subscripting a `dict` with a slice. -/
  | typeError
  /-- `AttributeError`: accessing an attribute that does not exist. -/
  | attributeError
  /-- `Model.DoesNotExist` raised by `Manager.get`. -/
  | doesNotExist
  /-- `DNSaaSIntegrationNotEnabledError` from `ralph.dns.views`. -/
  | dnsaasIntegrationNotEnabledError
  /-- the bare `raise Exception()` in `clean_dns`. -/
  | genericException
deriving DecidableEq, Repr

/-- An IP address bound to an ethernet of a target
(`ralph.networks.models.IPAddress` as seen through the related managers). -/
structure IPAddress where
  address : String
  is_management : Bool
deriving DecidableEq, Repr

/-- An ethernet interface of a target (`ralph.assets.models.Ethernet`);
`mac` is nullable, `ipaddress` is the related manager of its IP bindings. -/
structure Ethernet where
  id : Nat
  mac : Option String
  ipaddress : List IPAddress
deriving DecidableEq, Repr

/-- A network environment (`ralph.networks.models.NetworkEnvironment`):
its primary key and its `str()` form used in choice labels. -/
structure NetworkEnvironment where
  id : Nat
  name : String
deriving DecidableEq, Repr

/-- A network (`ralph.networks.models.Network`): its primary key and its
`str()` form used in choice labels. -/
structure Network where
  id : Nat
  name : String
deriving DecidableEq, Repr

/-- A deployment target (`DataCenterAsset` / `VirtualServer`).
`ethernet` is the related manager of its interfaces;
`available_network_environments` and `available_networks` hold what the
target's `_get_available_network_environments()` /
`_get_available_networks()` return. -/
structure Target where
  id : Nat
  hostname : Option String
  ethernet : List Ethernet
  service_env_id : Option Nat
  configuration_path_id : Option Nat
  available_network_environments : List NetworkEnvironment
  available_networks : List Network
deriving DecidableEq, Repr

/-- `NEXT_FREE = _('<NEXT FREE>')` (module constant). -/
def NEXT_FREE : String := "<NEXT FREE>"

/-- `NEXT_FREE_HOSTNAME = 'next_free__network_environment_'` (module constant). -/
def NEXT_FREE_HOSTNAME : String := "next_free__network_environment_"

/-- `NEXT_FREE_IP = 'next_free__network_'` (module constant). -/
def NEXT_FREE_IP : String := "next_free__network_"

/-- Sentinel key of the free-form choice, imported from
`ralph.lib.mixins.forms`. Modelled from the spec: the spec's free-form
"other" option is a fixed sentinel distinct from every `next_free__…` key. -/
def OTHER : String := "__other__"

/-- All IP bindings of a target, as `instance.ipaddresses.all()` returns
them (the IPs bound to any of its ethernets). -/
def Target.ipaddresses (t : Target) : List IPAddress :=
  (t.ethernet.map Ethernet.ipaddress).flatten

/-- `autocomplete_service_env(actions, objects)`: the shared
`service_env_id` when all objects agree, else `None`. -/
def autocomplete_service_env (objects : List Target) : Option Nat :=
  let service_envs := objects.map Target.service_env_id
  if service_envs.toFinset.card = 1 then service_envs.head?.getD none
  else none

/-- `autocomplete_configuration_path(actions, objects)`: the shared
`configuration_path_id` when all objects agree, else `None`. -/
def autocomplete_configuration_path (objects : List Target) : Option Nat :=
  let configuration_paths := objects.map Target.configuration_path_id
  if configuration_paths.toFinset.card = 1 then configuration_paths.head?.getD none
  else none

/-- The set an object's `_get_available_network_environments()` yields, as
`next_free_hostname_choices` builds it with `set(...)`. -/
def availEnvs (obj : Target) : Finset NetworkEnvironment :=
  obj.available_network_environments.toFinset

/-- The set an object's `_get_available_networks()` yields, as
`next_free_ip_choices` builds it with `set(...)`. -/
def availNets (obj : Target) : Finset Network :=
  obj.available_networks.toFinset

/-- The choice tuple built for one network environment:
`('next_free__network_environment_<id>', '<NEXT FREE> (<env>)')`. -/
def hostnameChoice (net_env : NetworkEnvironment) : String × String :=
  (NEXT_FREE_HOSTNAME ++ toString net_env.id,
   NEXT_FREE ++ " (" ++ net_env.name ++ ")")

/-- The choice tuple built for one network:
`('next_free__network_<id>', '<NEXT FREE> (<network>)')`. -/
def ipChoice (network : Network) : String × String :=
  (NEXT_FREE_IP ++ toString network.id,
   NEXT_FREE ++ " (" ++ network.name ++ ")")

/-- `set.intersection(*network_environments)` over the per-object
environment sets, as computed inside `next_free_hostname_choices`
(undefined — a Python `TypeError` — on an empty batch; the `[]` case here
is never reached by the guarded caller). -/
def envIntersection : List Target → Finset NetworkEnvironment
  | [] => ∅
  | obj :: rest => (rest.map availEnvs).foldl (· ∩ ·) (availEnvs obj)

/-- `set.intersection(*networks)` over the per-object network sets, as
computed inside `next_free_ip_choices` (same caveat on the empty batch). -/
def netIntersection : List Target → Finset Network
  | [] => ∅
  | obj :: rest => (rest.map availNets).foldl (· ∩ ·) (availNets obj)

/-- `next_free_hostname_choices(actions, objects)`: one choice per network
environment common to every object. The returned collection is a `Finset`
because Python iterates a `set` in unspecified order; the empty batch, on
which the Python raises `TypeError`, is `none`. -/
def next_free_hostname_choices (objects : List Target) :
    Option (Finset (String × String)) :=
  if objects.isEmpty then none
  else some ((envIntersection objects).image hostnameChoice)

/-- `next_free_ip_choices(actions, objects)`: one choice per network common
to every object, plus the `(OTHER, 'Other')` choice when the batch has
exactly one object. Same conventions as `next_free_hostname_choices`. -/
def next_free_ip_choices (objects : List Target) :
    Option (Finset (String × String)) :=
  if objects.isEmpty then none
  else
    let ips := (netIntersection objects).image ipChoice
    some (if objects.length = 1 then insert (OTHER, "Other") ips else ips)

/-- `mac_choices_for_objects(actions, objects)`: for a single object, one
choice per ethernet with a non-null MAC (`ethernet.filter(mac__isnull=False)`);
otherwise the single `('0', 'use first')` sentinel. Keys are stringified as
the form layer does. -/
def mac_choices_for_objects (objects : List Target) : List (String × String) :=
  match objects with
  | [obj] => (obj.ethernet.filter (fun eth => eth.mac.isSome)).map
      (fun eth => (toString eth.id, eth.mac.getD ""))
  | _ => [("0", "use first")]

/-- Comparison used to model `.order_by('mac')` (nulls cannot occur: the
queryset is already filtered to non-null MACs). -/
def macLe (a b : Ethernet) : Bool := a.mac.getD "" ≤ b.mac.getD ""

/-- Insertion step of the stable sort modelling `.order_by('mac')`. -/
def insertByMac (e : Ethernet) : List Ethernet → List Ethernet
  | [] => [e]
  | x :: xs => if macLe e x then e :: x :: xs else x :: insertByMac e xs

/-- Stable sort modelling `.order_by('mac')`. -/
def orderByMac : List Ethernet → List Ethernet
  | [] => []
  | e :: es => insertByMac e (orderByMac es)

/-- `_get_non_mgmt_ethernets(instance)`: the first (by MAC) ethernet with a
non-null MAC and no management IP bound
(`filter(mac__isnull=False).exclude(ipaddress__is_management=True)
.order_by('mac').first()`), or `none`. Despite its plural name and
docstring, the source returns `.first()` — a single row or `None`. -/
def _get_non_mgmt_ethernets (inst : Target) : Option Ethernet :=
  (orderByMac (inst.ethernet.filter
    (fun eth => eth.mac.isSome && !(eth.ipaddress.any IPAddress.is_management)))).head?

/-- `check_mac_address(instances)`: the error mapping of the
`create_dhcp_entries` precondition — an entry per instance for which
`_get_non_mgmt_ethernets` finds nothing. -/
def check_mac_address (instances : List Target) : List (Target × String) :=
  instances.filterMap (fun inst =>
    if (_get_non_mgmt_ethernets inst).isNone then
      some (inst, "Non-management MAC address not found")
    else none)

/-- `clean_hostname(cls, instances)`: sets every instance's hostname to
`None`. -/
def clean_hostname (instances : List Target) : List Target :=
  instances.map (fun inst => { inst with hostname := none })

/-- A DNS record as the DNSaaS client returns it
(`pk`, `type`, `name`, `content`). -/
structure DnsRecord where
  pk : Nat
  rtype : String
  name : String
  content : String
deriving DecidableEq, Repr

/-- The external DNSaaS client (`ralph.dns.dnsaas.DNSaaS`), a collaborator:
`get_dns_records` lists the records for a set of addresses and
`delete_dns_record` deletes one record by pk, returning a truthy value on
failure (the source raises when that happens). -/
structure DNSaaS where
  get_dns_records : List String → List DnsRecord
  delete_dns_record : Nat → Bool

/-- The inner record loop of `clean_dns`: deletes records one by one,
returning the pks on which `delete_dns_record` was called and the raised
exception, if any (`raise Exception()` when a deletion reports failure). -/
def deleteRecordsLoop (dnsaas : DNSaaS) : List DnsRecord → List Nat × Option PyError
  | [] => ([], none)
  | record :: rest =>
      if dnsaas.delete_dns_record record.pk then
        ([record.pk], some .genericException)
      else
        let r := deleteRecordsLoop dnsaas rest
        (record.pk :: r.1, r.2)

/-- The per-instance loop of `clean_dns`. -/
def cleanDnsLoop (dnsaas : DNSaaS) : List Target → List Nat × Option PyError
  | [] => ([], none)
  | inst :: rest =>
      let records := dnsaas.get_dns_records (inst.ipaddresses.map IPAddress.address)
      let r := deleteRecordsLoop dnsaas records
      match r.2 with
      | some e => (r.1, some e)
      | none =>
          let r2 := cleanDnsLoop dnsaas rest
          (r.1 ++ r2.1, r2.2)

/-- `clean_dns(cls, instances)`: raises `DNSaaSIntegrationNotEnabledError`
when `settings.ENABLE_DNSAAS_INTEGRATION` is off, before the `DNSaaS`
client is even constructed; otherwise deletes every DNS record of every
instance's addresses. Result: the pks on which a deletion was attempted,
and the exception raised, if any. The body never writes any field of any
instance, so the targets do not appear in the result. -/
def clean_dns (enable_dnsaas_integration : Bool) (dnsaas : DNSaaS)
    (instances : List Target) : List Nat × Option PyError :=
  if !enable_dnsaas_integration then ([], some .dnsaasIntegrationNotEnabledError)
  else cleanDnsLoop dnsaas instances

/-- `clean_ipaddresses(cls, instances)`: deletes every IP address of every
instance (`for ip in instance.ipaddresses.all(): ip.delete()`). -/
def clean_ipaddresses (instances : List Target) : List Target :=
  instances.map (fun inst =>
    { inst with ethernet := inst.ethernet.map (fun eth => { eth with ipaddress := [] }) })

/-- `clean_dhcp(cls, instances)`: for each instance the source evaluates
`_get_non_mgmt_ethernets(instance).values_list('mac', flat=True)`, but
`_get_non_mgmt_ethernets` ends in `.first()` and thus returns a single
`Ethernet` row or `None`, neither of which has `values_list`; with a
non-empty batch the first loop iteration therefore raises
`AttributeError` (the deletion code below that line is commented out). -/
def clean_dhcp (instances : List Target) : Except PyError (List Target) :=
  match instances with
  | [] => .ok []
  | _ :: _ => .error .attributeError

/-- A network environment together with its hostname allocator state.
Modelled from the spec for the collaborator contract
`issue_next_free_hostname(scope) -> hostname`: `issue k` is the hostname
handed out by the `(k+1)`-th issuance for this environment, `counter`
counts the issuances already made, so consecutive calls yield fresh
values. -/
structure NetworkEnvironmentRecord where
  env : NetworkEnvironment
  issue : Nat → String
  counter : Nat

/-- One call of the allocator: the issued hostname and the advanced
allocator state. -/
def NetworkEnvironmentRecord.issue_next_free_hostname
    (net_env : NetworkEnvironmentRecord) : String × NetworkEnvironmentRecord :=
  (net_env.issue net_env.counter, { net_env with counter := net_env.counter + 1 })

/-- The per-instance loop of `assign_new_hostname`: each iteration obtains
`new_hostname = net_env.issue_next_free_hostname()`, logs
`Assigning <new_hostname> to <instance>` (the issued hostnames are
returned as the second component, mirroring that log), and then executes
`instance.hostname = hostname` — the raw form value, not `new_hostname`. -/
def assignHostnameLoop (hostname : String) :
    List Target → NetworkEnvironmentRecord → List Target × List String
  | [], _ => ([], [])
  | inst :: rest, net_env =>
      let issued := net_env.issue_next_free_hostname
      let new_hostname := issued.1
      let r := assignHostnameLoop hostname rest issued.2
      ({ inst with hostname := some hostname } :: r.1, new_hostname :: r.2)

/-- `assign_new_hostname(cls, instances, hostname)`: strips the
`NEXT_FREE_HOSTNAME` prefix off the form value to get the network
environment pk, fetches that environment (`DoesNotExist` when absent), and
runs the assignment loop over the batch. -/
def assign_new_hostname (envs : List NetworkEnvironmentRecord)
    (instances : List Target) (hostname : String) :
    Except PyError (List Target × List String) :=
  let net_env_id := hostname.drop NEXT_FREE_HOSTNAME.length
  match envs.find? (fun e => toString e.env.id == net_env_id) with
  | none => .error .doesNotExist
  | some net_env => .ok (assignHostnameLoop hostname instances net_env)

/-- The cleaned value of a `ChoiceFieldWithOtherOption`: a dict holding the
selected choice under `'value'` and the free-form text under `OTHER`. -/
structure OtherChoiceValue where
  value : String
  other : String
deriving DecidableEq, Repr

/-- A persisted row of the external `IPAddress` table, as
`_create_dhcp_entries_for_single_instance` creates and saves it. -/
structure IPRecord where
  address : String
  ethernet_id : Option Nat
deriving DecidableEq, Repr

/-- `_create_dhcp_entries_for_single_instance(instance, ip_or_network,
ethernet_id)`: on the `OTHER` branch, creates `IPAddress(address=literal)`,
fetches the chosen ethernet (`DoesNotExist` when absent), attaches it and
saves — the store gains the new row. On the non-`OTHER` branch the source
evaluates `ip_or_network[len(NEXT_FREE_IP):]`, subscripting the form dict
with a slice, which raises `TypeError` (slices are unhashable) before
`Network.objects.get` is reached. The `instance` parameter is unused, as
in the source. -/
def _create_dhcp_entries_for_single_instance (ethernets : List Ethernet)
    (ip_store : List IPRecord) (inst : Target) (ip_or_network : OtherChoiceValue)
    (ethernet_id : Nat) : Except PyError (List IPRecord) :=
  if ip_or_network.value = OTHER then
    let ip_address := ip_or_network.other
    let ip : IPRecord := { address := ip_address, ethernet_id := none }
    match ethernets.find? (fun eth => eth.id == ethernet_id) with
    | none => .error .doesNotExist
    | some eth => .ok (ip_store ++ [{ ip with ethernet_id := some eth.id }])
  else
    .error .typeError

/-- `_create_dhcp_entries_for_many_instances(instances, ip_or_network)`:
each iteration evaluates `_get_non_mgmt_ethernets(instance)
.values_list('id', flat=True)`, and `_get_non_mgmt_ethernets` returns a
single row or `None` (see `clean_dhcp`), so a non-empty batch raises
`AttributeError` on the first iteration. -/
def _create_dhcp_entries_for_many_instances (instances : List Target)
    (ip_or_network : OtherChoiceValue) : Except PyError Unit :=
  match instances with
  | [] => .ok ()
  | _ :: _ => .error .attributeError

/-- `create_dhcp_entries(cls, instances, ip_or_network, ethernet)`: the
single-instance branch calls
`_create_dhcp_entries_for_single_instance(ip_or_network, ethernet)` —
two positional arguments for a three-parameter function — and the
multi-instance branch calls
`_create_dhcp_entries_for_many_instances(ip_or_network,)` — one argument
for a two-parameter function; both calls raise `TypeError` before the
callee's body runs, so the IP store is never touched. -/
def create_dhcp_entries (ethernets : List Ethernet) (ip_store : List IPRecord)
    (instances : List Target) (ip_or_network : OtherChoiceValue)
    (ethernet : Nat) : Except PyError (List IPRecord) :=
  if instances.length = 1 then
    .error .typeError
  else
    .error .typeError

/-- Fixture: the production network environment used in concrete checks. -/
def prodEnv : NetworkEnvironment := { id := 1, name := "prod" }

/-- Fixture: a second network environment. -/
def labEnv : NetworkEnvironment := { id := 2, name := "lab" }

/-- Fixture: a network shared by the sample targets. -/
def net3 : Network := { id := 3, name := "10.0.0.0/24" }

/-- Fixture: an allocator for `prodEnv` issuing `h0`, `h1`, … -/
def prodEnvRecord : NetworkEnvironmentRecord :=
  { env := prodEnv, issue := fun k => "h" ++ toString k, counter := 0 }

/-- Fixture: an ethernet with a non-null MAC and no IP bindings. -/
def sampleEthernet : Ethernet :=
  { id := 1, mac := some "aa:bb:cc:dd:ee:01", ipaddress := [] }

/-- Fixture: a target with one clean non-management interface. -/
def sampleTarget : Target :=
  { id := 10, hostname := none, ethernet := [sampleEthernet],
    service_env_id := some 5, configuration_path_id := some 7,
    available_network_environments := [prodEnv],
    available_networks := [net3] }

/-- Fixture: a second target sharing `prodEnv` and `net3` with
`sampleTarget`. -/
def otherTarget : Target :=
  { id := 20, hostname := some "old-name",
    ethernet := [{ id := 4, mac := some "aa:bb:cc:dd:ee:04", ipaddress := [] }],
    service_env_id := some 6, configuration_path_id := some 7,
    available_network_environments := [prodEnv, labEnv],
    available_networks := [net3] }

/-- Fixture: a third target sharing only `prodEnv` with the others. -/
def thirdTarget : Target :=
  { id := 30, hostname := some "third-name",
    ethernet := [{ id := 5, mac := some "aa:bb:cc:dd:ee:05", ipaddress := [] }],
    service_env_id := some 5, configuration_path_id := some 8,
    available_network_environments := [prodEnv],
    available_networks := [] }

/-- Fixture for the C3 scenario: cleared hostname, one non-management
interface carrying two IP bindings, no management-IP-bound interface. -/
def scenarioTarget : Target :=
  { id := 11, hostname := none,
    ethernet := [{ id := 2, mac := some "aa:bb:cc:dd:ee:02",
                   ipaddress := [{ address := "10.0.0.1", is_management := false },
                                 { address := "10.0.0.2", is_management := false }] }],
    service_env_id := some 5, configuration_path_id := some 7,
    available_network_environments := [prodEnv],
    available_networks := [net3] }

/-- Fixture: the form value selecting the free-form option with a literal
address. -/
def sampleOtherChoice : OtherChoiceValue := { value := OTHER, other := "10.20.30.40" }

/-- Fixture: the choice set `next_free_ip_choices` yields for the
single-target batch `[sampleTarget]`. -/
def sampleIpChoiceSet : Finset (String × String) :=
  insert (OTHER, "Other") {ipChoice net3}

/-! ## Helper lemmas -/

theorem mem_foldl_inter {α : Type} [DecidableEq α] (l : List (Finset α))
    (s : Finset α) (x : α) :
    x ∈ l.foldl (· ∩ ·) s ↔ x ∈ s ∧ ∀ u ∈ l, x ∈ u := by
  induction l generalizing s with
  | nil => simp
  | cons a t ih => simp [ih, and_assoc]

theorem mem_envIntersection (objects : List Target) (e : NetworkEnvironment) :
    e ∈ envIntersection objects ↔ objects ≠ [] ∧ ∀ obj ∈ objects, e ∈ availEnvs obj := by
  cases objects with
  | nil => simp [envIntersection]
  | cons o rest => simp [envIntersection, mem_foldl_inter]

theorem mem_netIntersection (objects : List Target) (n : Network) :
    n ∈ netIntersection objects ↔ objects ≠ [] ∧ ∀ obj ∈ objects, n ∈ availNets obj := by
  cases objects with
  | nil => simp [netIntersection]
  | cons o rest => simp [netIntersection, mem_foldl_inter]

theorem envIntersection_perm {objects objects' : List Target}
    (h : objects.Perm objects') : envIntersection objects = envIntersection objects' := by
  ext e
  rw [mem_envIntersection, mem_envIntersection]
  constructor
  · rintro ⟨h1, h2⟩
    refine ⟨fun hn => h1 ?_, fun obj hm => h2 obj (h.mem_iff.mpr hm)⟩
    exact List.Perm.eq_nil (hn ▸ h)
  · rintro ⟨h1, h2⟩
    refine ⟨fun hn => h1 ?_, fun obj hm => h2 obj (h.mem_iff.mp hm)⟩
    exact List.Perm.eq_nil (hn ▸ h.symm)

theorem netIntersection_perm {objects objects' : List Target}
    (h : objects.Perm objects') : netIntersection objects = netIntersection objects' := by
  ext n
  rw [mem_netIntersection, mem_netIntersection]
  constructor
  · rintro ⟨h1, h2⟩
    refine ⟨fun hn => h1 ?_, fun obj hm => h2 obj (h.mem_iff.mpr hm)⟩
    exact List.Perm.eq_nil (hn ▸ h)
  · rintro ⟨h1, h2⟩
    refine ⟨fun hn => h1 ?_, fun obj hm => h2 obj (h.mem_iff.mp hm)⟩
    exact List.Perm.eq_nil (hn ▸ h.symm)

theorem OTHER_ne_ip_key (s : String) : OTHER ≠ NEXT_FREE_IP ++ s := by
  intro h
  have hlen := congrArg String.length h
  rw [String.length_append] at hlen
  have h1 : OTHER.length = 9 := rfl
  have h2 : NEXT_FREE_IP.length = 19 := rfl
  rw [h1, h2] at hlen
  omega

theorem insertByMac_ne_nil (e : Ethernet) (l : List Ethernet) :
    insertByMac e l ≠ [] := by
  cases l with
  | nil => simp [insertByMac]
  | cons x xs =>
      simp only [insertByMac]
      split <;> simp

theorem orderByMac_eq_nil_iff (l : List Ethernet) : orderByMac l = [] ↔ l = [] := by
  cases l with
  | nil => simp [orderByMac]
  | cons e es => simp [orderByMac, insertByMac_ne_nil]

theorem nonMgmtPred_iff (eth : Ethernet) :
    (eth.mac.isSome && !(eth.ipaddress.any IPAddress.is_management)) = true ↔
      eth.mac ≠ none ∧ ∀ ip ∈ eth.ipaddress, ip.is_management = false := by
  simp [List.any_eq_false, Option.isSome_iff_ne_none, Bool.not_eq_true']

theorem get_non_mgmt_ethernets_eq_none_iff (inst : Target) :
    _get_non_mgmt_ethernets inst = none ↔
      ¬ ∃ eth ∈ inst.ethernet, eth.mac ≠ none ∧
          ∀ ip ∈ eth.ipaddress, ip.is_management = false := by
  rw [_get_non_mgmt_ethernets, List.head?_eq_none_iff, orderByMac_eq_nil_iff,
    List.filter_eq_nil_iff]
  simp only [nonMgmtPred_iff]
  push_neg
  tauto

theorem toFinset_eq_singleton_of_all_eq {α : Type} [DecidableEq α] {l : List α}
    {v : α} (hne : l ≠ []) (h : ∀ x ∈ l, x = v) : l.toFinset = {v} := by
  obtain ⟨a, ha⟩ := List.exists_mem_of_ne_nil l hne
  ext x
  simp only [List.mem_toFinset, Finset.mem_singleton]
  constructor
  · exact fun hx => h x hx
  · intro hx
    rw [hx, ← h a ha]
    exact ha

theorem all_eq_of_toFinset_card_one {α : Type} [DecidableEq α] {l : List α}
    (h : l.toFinset.card = 1) : ∀ x ∈ l, ∀ y ∈ l, x = y := by
  obtain ⟨a, ha⟩ := Finset.card_eq_one.mp h
  intro x hx y hy
  have hx' := List.mem_toFinset.mpr hx
  have hy' := List.mem_toFinset.mpr hy
  rw [ha, Finset.mem_singleton] at hx' hy'
  rw [hx', hy']

theorem two_le_toFinset_card {α : Type} [DecidableEq α] {l : List α} {a b : α}
    (ha : a ∈ l) (hb : b ∈ l) (hab : a ≠ b) : l.toFinset.card ≠ 1 := by
  intro h
  exact hab (all_eq_of_toFinset_card_one h a ha b hb)

/-! ## Claim theorems -/

/-- C1: the spec says `assign_new_hostname` gives every target a hostname
freshly issued by the chosen environment's `issue_next_free_hostname`.
The code issues such a hostname (and logs it) but then executes
`instance.hostname = hostname`, the raw form-choice string. At this input
the freshly issued hostname is `h0`, yet the target ends up carrying the
raw string `next_free__network_environment_1`, which differs from every
issued value. -/
theorem assign_new_hostname_assigns_raw_form_value :
    assign_new_hostname [prodEnvRecord] [sampleTarget] (NEXT_FREE_HOSTNAME ++ "1") =
      .ok ([{ sampleTarget with hostname := some (NEXT_FREE_HOSTNAME ++ "1") }], ["h0"]) ∧
    NEXT_FREE_HOSTNAME ++ "1" ≠ "h0" := by
  exact ⟨rfl, by decide⟩

/-- C2: the spec says a single-target `create_dhcp_entries` run with the
`OTHER` option and a literal address creates and saves the IP binding.
The step body calls `_create_dhcp_entries_for_single_instance(ip_or_network,
ethernet)` — two positional arguments for a three-parameter function — so
it raises `TypeError` and the store stays empty; the helper invoked with
the correct arguments does exactly what the claim describes. -/
theorem create_dhcp_entries_single_other_raises :
    create_dhcp_entries [sampleEthernet] [] [sampleTarget] sampleOtherChoice 1 =
      .error .typeError ∧
    _create_dhcp_entries_for_single_instance [sampleEthernet] [] sampleTarget
        sampleOtherChoice 1 =
      .ok [{ address := "10.20.30.40", ethernet_id := some 1 }] := by
  exact ⟨rfl, rfl⟩

/-- C3: on a batch of one target with a cleared hostname and one
non-management interface carrying two IP bindings, `clean_ipaddresses`
does leave zero IP bindings, but the subsequent `clean_dhcp` raises
`AttributeError` (it calls `values_list` on the single row — or `None` —
that `_get_non_mgmt_ethernets` returns), contradicting the claim that no
exception is raised. -/
theorem clean_ipaddresses_then_clean_dhcp_raises :
    scenarioTarget.hostname = none ∧
    scenarioTarget.ipaddresses.length = 2 ∧
    (clean_ipaddresses [scenarioTarget]).map Target.ipaddresses = [[]] ∧
    clean_dhcp (clean_ipaddresses [scenarioTarget]) = .error .attributeError := by
  exact ⟨rfl, rfl, rfl, rfl⟩

/-- C8: with the DNS integration disabled, `clean_dns` raises
`DNSaaSIntegrationNotEnabledError` before the DNSaaS client is consulted:
for every client and every batch the result is that error and the list of
attempted record deletions is empty (and the step body never writes any
target field at all). -/
theorem clean_dns_disabled_propagates (dnsaas : DNSaaS) (instances : List Target) :
    clean_dns false dnsaas instances = ([], some .dnsaasIntegrationNotEnabledError) := rfl

/-- C4: for three targets whose available network environments share
exactly one environment, `next_free_hostname_choices` returns exactly the
choice built for that environment; for any non-empty batch with an empty
intersection it returns the empty choice collection (not an error). -/
theorem next_free_hostname_choices_three_targets (A B C : Target) :
    (∀ e : NetworkEnvironment,
      availEnvs A ∩ availEnvs B ∩ availEnvs C = {e} →
      next_free_hostname_choices [A, B, C] = some {hostnameChoice e}) ∧
    (∀ objects : List Target, objects ≠ [] → envIntersection objects = ∅ →
      next_free_hostname_choices objects = some ∅) := by
  constructor
  · intro e h
    have h3 : envIntersection [A, B, C] = availEnvs A ∩ availEnvs B ∩ availEnvs C := rfl
    rw [next_free_hostname_choices]
    rw [show ([A, B, C].isEmpty) = false from rfl, if_neg (by simp)]
    rw [h3, h, Finset.image_singleton]
  · intro objects hne hinter
    cases objects with
    | nil => exact absurd rfl hne
    | cons o rest =>
        rw [next_free_hostname_choices]
        rw [show ((o :: rest).isEmpty) = false from rfl, if_neg (by simp)]
        rw [hinter, Finset.image_empty]

/-- Witness for C4 at a concrete three-target batch sharing exactly the
`prodEnv` environment. -/
theorem next_free_hostname_choices_three_targets_witness :
    next_free_hostname_choices [sampleTarget, otherTarget, thirdTarget] =
      some {hostnameChoice prodEnv} :=
  (next_free_hostname_choices_three_targets sampleTarget otherTarget thirdTarget).1
    prodEnv (by decide)

/-- C5: for a single-target batch, `mac_choices_for_objects` yields one
choice per ethernet of that target with a non-null MAC — every choice
carries the id and MAC of such an ethernet, and the count matches; for a
batch of more than one target it collapses to the single
`('0', 'use first')` sentinel. -/
theorem mac_choices_for_objects_spec :
    (∀ obj : Target,
      (mac_choices_for_objects [obj]).length =
        (obj.ethernet.filter (fun eth => eth.mac.isSome)).length ∧
      ∀ c ∈ mac_choices_for_objects [obj],
        ∃ eth ∈ obj.ethernet, eth.mac = some c.2 ∧ c.1 = toString eth.id) ∧
    (∀ objects : List Target, 1 < objects.length →
      mac_choices_for_objects objects = [("0", "use first")]) := by
  constructor
  · intro obj
    constructor
    · simp [mac_choices_for_objects]
    · intro c hc
      simp only [mac_choices_for_objects, List.mem_map, List.mem_filter] at hc
      obtain ⟨eth, ⟨hmem, hsome⟩, rfl⟩ := hc
      obtain ⟨m, hm⟩ := Option.isSome_iff_exists.mp hsome
      exact ⟨eth, hmem, by simp [hm], rfl⟩
  · intro objects hlen
    match objects, hlen with
    | a :: b :: rest, _ => rfl

/-- Witness for C5 at a concrete two-target batch. -/
theorem mac_choices_for_objects_spec_witness :
    mac_choices_for_objects [sampleTarget, otherTarget] = [("0", "use first")] :=
  mac_choices_for_objects_spec.2 [sampleTarget, otherTarget] (by decide)

/-- C6: whenever `next_free_ip_choices` returns a choice collection, that
collection contains the free-form `(OTHER, 'Other')` choice exactly when
the batch has one target; for two or more targets every returned choice is
the next-free-IP choice of a network common to all targets. -/
theorem next_free_ip_choices_other_only_for_single (objects : List Target)
    (s : Finset (String × String)) (h : next_free_ip_choices objects = some s) :
    ((OTHER, "Other") ∈ s ↔ objects.length = 1) ∧
    (1 < objects.length → ∀ c ∈ s, ∃ n ∈ netIntersection objects, c = ipChoice n) := by
  cases objects with
  | nil => simp [next_free_ip_choices] at h
  | cons o rest =>
    rw [next_free_ip_choices] at h
    rw [show ((o :: rest).isEmpty) = false from rfl, if_neg (by simp)] at h
    cases rest with
    | nil =>
        simp only [List.length_cons, List.length_nil, if_pos rfl,
          Option.some.injEq] at h
        subst h
        constructor
        · simp
        · intro hlen
          simp at hlen
    | cons r rs =>
        have hne1 : (o :: r :: rs).length ≠ 1 := by simp
        simp only [if_neg hne1, Option.some.injEq] at h
        subst h
        constructor
        · constructor
          · intro hmem
            obtain ⟨n, hn, heq⟩ := Finset.mem_image.mp hmem
            have : NEXT_FREE_IP ++ toString n.id = OTHER := congrArg Prod.fst heq
            exact absurd this.symm (OTHER_ne_ip_key (toString n.id))
          · intro hlen
            simp at hlen
        · intro hlen c hc
          obtain ⟨n, hn, heq⟩ := Finset.mem_image.mp hc
          exact ⟨n, hn, heq.symm⟩

/-- Witness for C6 at the single-target batch `[sampleTarget]`. -/
theorem next_free_ip_choices_other_only_for_single_witness :
    (OTHER, "Other") ∈ sampleIpChoiceSet ↔ [sampleTarget].length = 1 :=
  (next_free_ip_choices_other_only_for_single [sampleTarget] sampleIpChoiceSet
    (by decide)).1

/-- C7: the per-target set intersection behind both choice functions is
associative over the batch — intersecting the sets of `{A, B}` and then
`C`'s set equals intersecting directly over `{A, B, C}` — and any
reordering of the batch yields the same choice set from
`next_free_hostname_choices` and `next_free_ip_choices`. -/
theorem choice_set_intersection_comm_assoc :
    (∀ A B C : Target,
      envIntersection [A, B] ∩ availEnvs C = envIntersection [A, B, C] ∧
      netIntersection [A, B] ∩ availNets C = netIntersection [A, B, C]) ∧
    (∀ objects objects' : List Target, objects.Perm objects' →
      next_free_hostname_choices objects = next_free_hostname_choices objects' ∧
      next_free_ip_choices objects = next_free_ip_choices objects') := by
  constructor
  · intro A B C
    exact ⟨rfl, rfl⟩
  · intro objects objects' h
    have hlen := h.length_eq
    cases objects with
    | nil =>
        cases objects' with
        | nil => exact ⟨rfl, rfl⟩
        | cons o' r' => simp at hlen
    | cons o r =>
        cases objects' with
        | nil => simp at hlen
        | cons o' r' =>
            constructor
            · rw [next_free_hostname_choices, next_free_hostname_choices]
              rw [show ((o :: r).isEmpty) = false from rfl,
                show ((o' :: r').isEmpty) = false from rfl]
              rw [envIntersection_perm h]
            · rw [next_free_ip_choices, next_free_ip_choices]
              rw [show ((o :: r).isEmpty) = false from rfl,
                show ((o' :: r').isEmpty) = false from rfl]
              rw [netIntersection_perm h, hlen]

/-- Witness for C7 at a concrete reordered two-target batch. -/
theorem choice_set_intersection_comm_assoc_witness :
    next_free_hostname_choices [sampleTarget, otherTarget] =
      next_free_hostname_choices [otherTarget, sampleTarget] ∧
    next_free_ip_choices [sampleTarget, otherTarget] =
      next_free_ip_choices [otherTarget, sampleTarget] :=
  choice_set_intersection_comm_assoc.2 [sampleTarget, otherTarget]
    [otherTarget, sampleTarget] (List.Perm.swap otherTarget sampleTarget [])

/-- C9: a target of the batch gets an entry in the `check_mac_address`
error mapping exactly when it has no ethernet with a non-null MAC free of
management IP bindings; a batch where every target has such an ethernet
yields the empty mapping. -/
theorem check_mac_address_spec (instances : List Target) (t : Target)
    (h : t ∈ instances) :
    ((∃ msg, (t, msg) ∈ check_mac_address instances) ↔
      ¬ ∃ eth ∈ t.ethernet, eth.mac ≠ none ∧
          ∀ ip ∈ eth.ipaddress, ip.is_management = false) ∧
    ((∀ inst ∈ instances, ∃ eth ∈ inst.ethernet, eth.mac ≠ none ∧
        ∀ ip ∈ eth.ipaddress, ip.is_management = false) →
      check_mac_address instances = []) := by
  constructor
  · rw [← get_non_mgmt_ethernets_eq_none_iff]
    constructor
    · rintro ⟨msg, hm⟩
      rw [check_mac_address, List.mem_filterMap] at hm
      obtain ⟨a, ha, hq⟩ := hm
      by_cases hn : (_get_non_mgmt_ethernets a).isNone
      · rw [if_pos hn, Option.some.injEq, Prod.mk.injEq] at hq
        rw [← hq.1]
        exact Option.isNone_iff_eq_none.mp hn
      · rw [if_neg hn] at hq
        exact absurd hq (by simp)
    · intro hn
      refine ⟨"Non-management MAC address not found", ?_⟩
      rw [check_mac_address, List.mem_filterMap]
      exact ⟨t, h, by rw [if_pos (Option.isNone_iff_eq_none.mpr hn)]⟩
  · intro hall
    rw [check_mac_address, List.filterMap_eq_nil_iff]
    intro a ha
    have hne : _get_non_mgmt_ethernets a ≠ none := by
      rw [Ne, get_non_mgmt_ethernets_eq_none_iff]
      intro hcon
      exact hcon (hall a ha)
    rw [if_neg (by simpa [Option.isNone_iff_eq_none] using hne)]

/-- Witness for C9 at the batch `[sampleTarget]`, whose only target has a
qualifying ethernet, so the precondition mapping is empty. -/
theorem check_mac_address_spec_witness :
    check_mac_address [sampleTarget] = [] :=
  (check_mac_address_spec [sampleTarget] sampleTarget (by decide)).2 (by decide)

theorem shared_default_all_eq (f : Target → Option Nat) (objects : List Target)
    (hne : objects ≠ []) (v : Option Nat) (h : ∀ obj ∈ objects, f obj = v) :
    (if (objects.map f).toFinset.card = 1 then (objects.map f).head?.getD none
     else none) = v := by
  have hmapne : objects.map f ≠ [] := by
    simpa [List.map_eq_nil_iff] using hne
  have hall : ∀ x ∈ objects.map f, x = v := by
    intro x hx
    obtain ⟨o, ho, rfl⟩ := List.mem_map.mp hx
    exact h o ho
  rw [if_pos (by rw [toFinset_eq_singleton_of_all_eq hmapne hall]; exact Finset.card_singleton v)]
  cases objects with
  | nil => exact absurd rfl hne
  | cons o rest => simp [h o (by simp)]

theorem shared_default_two_differ (f : Target → Option Nat) (objects : List Target)
    (a : Target) (ha : a ∈ objects) (b : Target) (hb : b ∈ objects)
    (hab : f a ≠ f b) :
    (if (objects.map f).toFinset.card = 1 then (objects.map f).head?.getD none
     else none) = none := by
  exact if_neg (two_le_toFinset_card (List.mem_map_of_mem f ha)
    (List.mem_map_of_mem f hb) hab)

theorem shared_default_never_fabricates (f : Target → Option Nat)
    (objects : List Target) (k : Nat)
    (h : (if (objects.map f).toFinset.card = 1 then (objects.map f).head?.getD none
          else none) = some k) :
    ∀ obj ∈ objects, f obj = some k := by
  by_cases hc : (objects.map f).toFinset.card = 1
  · rw [if_pos hc] at h
    intro obj hobj
    have hall := all_eq_of_toFinset_card_one hc
    cases hmap : objects.map f with
    | nil => rw [hmap] at h; simp at h
    | cons x xs =>
        rw [hmap] at h
        simp only [List.head?_cons, Option.getD_some] at h
        have hx : x ∈ objects.map f := by rw [hmap]; exact List.mem_cons_self x xs
        have hobj' : f obj ∈ objects.map f := List.mem_map_of_mem f hobj
        rw [hall (f obj) hobj' x hx, h]
  · rw [if_neg hc] at h
    simp at h

/-- C10: for a non-empty batch, each computed default
(`autocomplete_service_env`, `autocomplete_configuration_path`) returns
the value all targets share when they agree, returns `None` as soon as two
targets differ, and never returns an identifier that is not already
carried by every target of the batch. -/
theorem autocomplete_defaults_shared_only (objects : List Target)
    (h : objects ≠ []) :
    (∀ v, (∀ obj ∈ objects, obj.service_env_id = v) →
      autocomplete_service_env objects = v) ∧
    (∀ a ∈ objects, ∀ b ∈ objects, a.service_env_id ≠ b.service_env_id →
      autocomplete_service_env objects = none) ∧
    (∀ k, autocomplete_service_env objects = some k →
      ∀ obj ∈ objects, obj.service_env_id = some k) ∧
    (∀ v, (∀ obj ∈ objects, obj.configuration_path_id = v) →
      autocomplete_configuration_path objects = v) ∧
    (∀ a ∈ objects, ∀ b ∈ objects, a.configuration_path_id ≠ b.configuration_path_id →
      autocomplete_configuration_path objects = none) ∧
    (∀ k, autocomplete_configuration_path objects = some k →
      ∀ obj ∈ objects, obj.configuration_path_id = some k) := by
  refine ⟨?_, ?_, ?_, ?_, ?_, ?_⟩
  · exact fun v hv => shared_default_all_eq Target.service_env_id objects h v hv
  · exact fun a ha b hb hab =>
      shared_default_two_differ Target.service_env_id objects a ha b hb hab
  · exact fun k hk => shared_default_never_fabricates Target.service_env_id objects k hk
  · exact fun v hv => shared_default_all_eq Target.configuration_path_id objects h v hv
  · exact fun a ha b hb hab =>
      shared_default_two_differ Target.configuration_path_id objects a ha b hb hab
  · exact fun k hk =>
      shared_default_never_fabricates Target.configuration_path_id objects k hk

/-- Witness for C10: `sampleTarget` and `thirdTarget` share
`service_env_id = 5`, so the computed default offers `5`. -/
theorem autocomplete_defaults_shared_only_witness :
    autocomplete_service_env [sampleTarget, thirdTarget] = some 5 :=
  (autocomplete_defaults_shared_only [sampleTarget, thirdTarget] (by decide)).1
    (some 5) (by decide)

end RalphDeployment
